import Mathlib

/-!
Shallow embedding of `src/s3stream/s3stream.py` (PyWoody/S3StreamingTransfer).

The module defines one base class `BaseS3StreamingObject` and two subclasses
`S3StreamingUpload` and `S3StreamingDownload`.  The mutable object state is
modelled as a Lean structure; each Python method becomes a function from the
state to a (result, new state) pair.  `bytes` values are modelled as
`List Nat`; Python slicing (which clamps out-of-range indices and interprets
negative ones from the end) is modelled by `pySlice`.  The two
`threading.Event` objects are modelled by their boolean is-set status, since
every claim is about which state transitions set or clear them; the blocking
`wait()` calls are scheduling, not state change.
-/

/-- Python slice endpoint normalisation for `l[i:j]` on a list of length
`len`: a negative index counts from the end, and the result is clamped to
`[0, len]`. -/
def pyIdx (len : Nat) (i : Int) : Nat :=
  min (if i < 0 then ((len : Int) + i).toNat else i.toNat) len

/-- Python slice `l[i:j]` (step 1). -/
def pySlice (l : List Nat) (i j : Int) : List Nat :=
  let a := pyIdx l.length i
  let b := pyIdx l.length j
  (l.drop a).take (b - a)

/-- A Python value passed to the `error` setter: either an `Exception`
(carrying some payload, abstracted as a `Nat`) or a non-`Exception` value. -/
inductive PyVal where
  | exc (payload : Nat)
  | nonexc (payload : Nat)
deriving DecidableEq, Repr

/-- The state of a `BaseS3StreamingObject` as set up by `__init__`:
`file_size` and `buffer_size` are fixed; `processed`, `seek_pos`, `data`,
`__closed`, `__error` are the mutable data fields; `can_write_event` and
`can_read_event` record whether the two `threading.Event`s are set. -/
structure BaseS3StreamingObject where
  file_size : Nat
  buffer_size : Nat
  processed : Nat
  seek_pos : Int
  data : List Nat
  closed : Bool
  error : Option Nat
  can_write_event : Bool
  can_read_event : Bool
deriving DecidableEq, Repr

namespace BaseS3StreamingObject

/-- `__init__(file_size, buffer_size)`: `processed = 0`, `seek_pos = 0`,
`data = b''`, not closed, no error, `can_write_event.set()`,
`can_read_event` initially clear. -/
def mk0 (file_size buffer_size : Nat) : BaseS3StreamingObject :=
  { file_size := file_size
    buffer_size := buffer_size
    processed := 0
    seek_pos := 0
    data := []
    closed := false
    error := none
    can_write_event := true
    can_read_event := false }

/-- The `error` property getter: returns the stored `__error`. -/
def errorGet (s : BaseS3StreamingObject) : Option Nat :=
  s.error

/-- The `error` property setter: if `isinstance(err, Exception)` it stores
`err` and returns `True`; otherwise it leaves the state unchanged and
returns `False`.  It raises no exception in either case (it is a total
function). -/
def errorSet (s : BaseS3StreamingObject) (err : PyVal) :
    Bool × BaseS3StreamingObject :=
  match err with
  | .exc p => (true, { s with error := some p })
  | .nonexc _ => (false, s)

/-- `close()`: sets `__closed = True` and `can_read_event.set()`. -/
def close (s : BaseS3StreamingObject) : BaseS3StreamingObject :=
  { s with closed := true, can_read_event := true }

/-- `tell()`: returns the current `seek_pos`, state unchanged. -/
def tell (s : BaseS3StreamingObject) : Int × BaseS3StreamingObject :=
  (s.seek_pos, s)

/-- `write(chunk)`: appends `chunk` to `data`, sets `can_read_event`,
clears `can_write_event` if the new `len(data) >= buffer_size`, and returns
`len(chunk)`.  (The `can_write_event.wait()` before the lock is blocking
behaviour, not a state change.) -/
def write (s : BaseS3StreamingObject) (chunk : List Nat) :
    Nat × BaseS3StreamingObject :=
  let newData := s.data ++ chunk
  (chunk.length,
    { s with
      data := newData
      can_read_event := true
      can_write_event :=
        if s.buffer_size ≤ newData.length then false else s.can_write_event })

/-- `prune(amount)`: `data = data[amount:]`, `seek_pos -= amount`,
`processed += amount`, `can_write_event.set()` (unconditionally), and if the
remaining window is empty, `can_read_event` is set when
`processed == file_size` and cleared otherwise.  The claims quantify over
`0 <= amount`, so the amount is a `Nat` and `data[amount:]` is `List.drop`. -/
def prune (s : BaseS3StreamingObject) (amount : Nat) : BaseS3StreamingObject :=
  let newData := s.data.drop amount
  { s with
    data := newData
    seek_pos := s.seek_pos - amount
    processed := s.processed + amount
    can_write_event := true
    can_read_event :=
      if newData.length = 0 then decide (s.processed + amount = s.file_size)
      else s.can_read_event }

end BaseS3StreamingObject

namespace S3StreamingUpload

/-- `S3StreamingUpload.read(n)`:
`seek_amount = min(n, len(data) - seek_pos)` (over Python ints),
`current_seek = seek_pos + seek_amount`,
returns `data[seek_pos:current_seek]` and stores `seek_pos = current_seek`.
(The `can_read_event.wait()` is blocking behaviour, not a state change.) -/
def read (s : BaseS3StreamingObject) (n : Nat) :
    List Nat × BaseS3StreamingObject :=
  let seek_amount : Int := min (n : Int) ((s.data.length : Int) - s.seek_pos)
  let current_seek := s.seek_pos + seek_amount
  let output := pySlice s.data s.seek_pos current_seek
  (output, { s with seek_pos := current_seek })

/-- `S3StreamingUpload.seek(offset, whence)`: for `whence <= 0` or
`whence > 2` sets `seek_pos = offset`; for `whence == 1` sets
`seek_pos += offset`; for `whence == 2` sets
`seek_pos = file_size + offset`.  Returns the new `seek_pos`. -/
def seek (s : BaseS3StreamingObject) (offset : Int) (whence : Int) :
    Int × BaseS3StreamingObject :=
  let newPos : Int :=
    if whence ≤ 0 ∨ 2 < whence then offset
    else if whence = 1 then s.seek_pos + offset
    else s.file_size + offset
  (newPos, { s with seek_pos := newPos })

end S3StreamingUpload

namespace S3StreamingDownload

/-- `S3StreamingDownload.read(n)`: performs the same slice-and-advance as
the upload read; then, if the output is `b''`, returns Python `None`
(modelled as `Option.none`) without pruning, and otherwise calls
`self.prune(len(output))` and returns the output. -/
def read (s : BaseS3StreamingObject) (n : Nat) :
    Option (List Nat) × BaseS3StreamingObject :=
  let seek_amount : Int := min (n : Int) ((s.data.length : Int) - s.seek_pos)
  let current_seek := s.seek_pos + seek_amount
  let output := pySlice s.data s.seek_pos current_seek
  let s1 : BaseS3StreamingObject := { s with seek_pos := current_seek }
  if output = [] then (none, s1)
  else (some output, s1.prune output.length)

/-- `S3StreamingDownload.seek(offset, whence)`: computes (without storing)
`offset` for `whence <= 0` or `whence > 2`,
`processed + len(data) + offset` for `whence == 1`, and
`file_size + offset` for `whence == 2`, and returns it; no attribute of the
object is assigned. -/
def seek (s : BaseS3StreamingObject) (offset : Int) (whence : Int) :
    Int × BaseS3StreamingObject :=
  let pos : Int :=
    if whence ≤ 0 ∨ 2 < whence then offset
    else if whence = 1 then (s.processed : Int) + s.data.length + offset
    else s.file_size + offset
  (pos, s)

end S3StreamingDownload

/-- One call of any public mutating method of the object, result discarded:
used to state state-evolution invariants over arbitrary operation
sequences. -/
inductive Op where
  | write (chunk : List Nat)
  | prune (amount : Nat)
  | readUp (n : Nat)
  | readDown (n : Nat)
  | seekUp (offset whence : Int)
  | seekDown (offset whence : Int)
  | closeOp
  | tellOp
  | errSet (v : PyVal)
deriving DecidableEq, Repr

/-- The state after performing one operation. -/
def Op.step (op : Op) (s : BaseS3StreamingObject) : BaseS3StreamingObject :=
  match op with
  | .write c => (s.write c).2
  | .prune a => s.prune a
  | .readUp n => (S3StreamingUpload.read s n).2
  | .readDown n => (S3StreamingDownload.read s n).2
  | .seekUp o w => (S3StreamingUpload.seek s o w).2
  | .seekDown o w => (S3StreamingDownload.seek s o w).2
  | .closeOp => s.close
  | .tellOp => s.tell.2
  | .errSet v => (s.errorSet v).2

/-- An interleaving of producer writes and consumer reads, for the
round-trip property. -/
inductive OpRW where
  | wr (chunk : List Nat)
  | rd (n : Nat)
deriving DecidableEq, Repr

/-- Concatenation of all chunks written during a trace. -/
def writesOf : List OpRW → List Nat
  | [] => []
  | .wr c :: ops => c ++ writesOf ops
  | .rd _ :: ops => writesOf ops

/-- Run a trace against the download (self-pruning) variant, concatenating
the bytes returned by the reads (a `None` return contributes nothing). -/
def runD : List OpRW → BaseS3StreamingObject →
    List Nat × BaseS3StreamingObject
  | [], s => ([], s)
  | .wr c :: ops, s => runD ops (s.write c).2
  | .rd n :: ops, s =>
      let r := S3StreamingDownload.read s n
      let rest := runD ops r.2
      (r.1.getD [] ++ rest.1, rest.2)

/-- Run a trace against the upload variant with the required external
pruning: after each read the driver (the `upload_fileobj` Callback) calls
`prune` with the number of bytes just consumed. -/
def runU : List OpRW → BaseS3StreamingObject →
    List Nat × BaseS3StreamingObject
  | [], s => ([], s)
  | .wr c :: ops, s => runU ops (s.write c).2
  | .rd n :: ops, s =>
      let r := S3StreamingUpload.read s n
      let rest := runU ops (r.2.prune r.1.length)
      (r.1 ++ rest.1, rest.2)

section Helpers

open BaseS3StreamingObject

lemma take_min_length (l : List Nat) (n : Nat) :
    l.take (min n l.length) = l.take n := by
  rcases Nat.le_total n l.length with h | h
  · rw [Nat.min_eq_left h]
  · rw [Nat.min_eq_right h, List.take_of_length_le h,
      List.take_of_length_le (Nat.le_refl _)]

lemma pyIdx_of_nonneg (len : Nat) (i : Int) (h0 : 0 ≤ i) :
    pyIdx len i = min i.toNat len := by
  simp [pyIdx, Int.not_lt.mpr h0]

/-- The slice taken by `read`: under `0 ≤ seek_pos ≤ len(data)` it is the
first (up to) `n` bytes of the window suffix that starts at the cursor. -/
lemma slice_read (l : List Nat) (p : Int) (n : Nat) (h0 : 0 ≤ p)
    (hle : p ≤ (l.length : Int)) :
    pySlice l p (p + min (n : Int) ((l.length : Int) - p)) =
      (l.drop p.toNat).take n := by
  have ha : pyIdx l.length p = p.toNat := by
    rw [pyIdx_of_nonneg _ _ h0]; omega
  have hb : pyIdx l.length (p + min (n : Int) ((l.length : Int) - p)) =
      p.toNat + (min (n : Int) ((l.length : Int) - p)).toNat := by
    rw [pyIdx_of_nonneg _ _ (by omega)]; omega
  have hmn : (min (n : Int) ((l.length : Int) - p)).toNat =
      min n ((l.drop p.toNat).length) := by
    rw [List.length_drop]; omega
  rw [pySlice, ha, hb]
  simp only [Nat.add_sub_cancel_left, hmn]
  exact take_min_length _ _

/-- `S3StreamingUpload.read` under the normal-operation invariant
`0 ≤ seek_pos ≤ len(data)`. -/
lemma upload_read_eq (s : BaseS3StreamingObject) (n : Nat)
    (h0 : 0 ≤ s.seek_pos) (hle : s.seek_pos ≤ (s.data.length : Int)) :
    S3StreamingUpload.read s n =
      ((s.data.drop s.seek_pos.toNat).take n,
        { s with seek_pos :=
            s.seek_pos + min (n : Int) ((s.data.length : Int) - s.seek_pos) }) := by
  simp only [S3StreamingUpload.read]
  rw [slice_read s.data s.seek_pos n h0 hle]

/-- `S3StreamingUpload.read` when the cursor lies beyond the window's end:
the result is empty and the cursor is pulled back to `len(data)`. -/
lemma upload_read_beyond (s : BaseS3StreamingObject) (n : Nat)
    (h0 : 0 ≤ s.seek_pos) (hgt : (s.data.length : Int) < s.seek_pos) :
    S3StreamingUpload.read s n =
      ([], { s with seek_pos := (s.data.length : Int) }) := by
  have hmin : min (n : Int) ((s.data.length : Int) - s.seek_pos) =
      (s.data.length : Int) - s.seek_pos := by
    rw [min_eq_right]; omega
  have ha : pyIdx s.data.length s.seek_pos = s.data.length := by
    rw [pyIdx_of_nonneg _ _ h0]; omega
  have hb : pyIdx s.data.length
      (s.seek_pos + ((s.data.length : Int) - s.seek_pos)) = s.data.length := by
    rw [pyIdx_of_nonneg _ _ (by omega)]; omega
  simp only [S3StreamingUpload.read, hmin, pySlice, ha, hb]
  simp

/-- `S3StreamingDownload.read` under `0 ≤ seek_pos ≤ len(data)`, expressed
through the window suffix at the cursor. -/
lemma download_read_eq (s : BaseS3StreamingObject) (n : Nat)
    (h0 : 0 ≤ s.seek_pos) (hle : s.seek_pos ≤ (s.data.length : Int)) :
    S3StreamingDownload.read s n =
      if (s.data.drop s.seek_pos.toNat).take n = [] then
        (none,
          { s with seek_pos :=
              s.seek_pos + min (n : Int) ((s.data.length : Int) - s.seek_pos) })
      else
        (some ((s.data.drop s.seek_pos.toNat).take n),
          ({ s with seek_pos := s.seek_pos + min (n : Int) ((s.data.length : Int) - s.seek_pos) }).prune
            ((s.data.drop s.seek_pos.toNat).take n).length) := by
  simp only [S3StreamingDownload.read]
  rw [slice_read s.data s.seek_pos n h0 hle]

end Helpers

/-- C3: for `0 ≤ amount ≤ len(data)`, `prune(amount)` removes exactly the
first `amount` bytes of the window, decrements the cursor by `amount`,
increments `processed` by `amount`, preserves the logical-content mapping
(the byte at logical offset `o` is `data[o - processed]`), and afterwards,
if the window is empty, the data-available event is set when
`processed = file_size` and cleared when `processed < file_size`. -/
theorem c3_prune_spec (s : BaseS3StreamingObject) (amount : Nat)
    (h : amount ≤ s.data.length) :
    (s.prune amount).data = s.data.drop amount ∧
    s.data = s.data.take amount ++ (s.prune amount).data ∧
    (s.prune amount).seek_pos = s.seek_pos - amount ∧
    (s.prune amount).processed = s.processed + amount ∧
    (∀ o : Nat, (s.prune amount).processed ≤ o →
      ((s.prune amount).data)[o - (s.prune amount).processed]? =
        s.data[o - s.processed]?) ∧
    ((s.prune amount).data = [] → (s.prune amount).processed = s.file_size →
      (s.prune amount).can_read_event = true) ∧
    ((s.prune amount).data = [] → (s.prune amount).processed < s.file_size →
      (s.prune amount).can_read_event = false) := by
  refine ⟨rfl, (List.take_append_drop amount s.data).symm, rfl, rfl, ?_, ?_, ?_⟩
  · intro o ho
    simp only [BaseS3StreamingObject.prune] at ho ⊢
    rw [List.getElem?_drop]
    congr 1
    omega
  · intro hempty hfull
    simp only [BaseS3StreamingObject.prune] at hempty hfull ⊢
    simp [hempty, hfull]
  · intro hempty hlt
    simp only [BaseS3StreamingObject.prune] at hempty hlt ⊢
    simp [hempty]
    omega

/-- C3 witness: evaluating the theorem on the concrete state
`file_size = 10`, window `[5, 6, 7]`, cursor 2, `processed = 0`, pruning 2
bytes. -/
theorem c3_prune_spec_witness :
    ((⟨10, 4, 0, 2, [5, 6, 7], false, none, true, true⟩ :
        BaseS3StreamingObject).prune 2).data = List.drop 2 [5, 6, 7] :=
  (c3_prune_spec ⟨10, 4, 0, 2, [5, 6, 7], false, none, true, true⟩ 2
    (by decide)).1

/-- C7 counterexample: in the download variant, after writing one byte and
reading it (so `processed = 1`, window empty, cursor 0),
`seek(0, whence=1)` returns `processed + len(data) + 0 = 1`, which is not
the current position (`tell() = 0`) plus the offset.  This refutes the
claim that `whence=1` yields "the current position plus offset" in every
variant. -/
theorem c7_seek_counterexample :
    (S3StreamingDownload.seek
        (S3StreamingDownload.read
          (((BaseS3StreamingObject.mk0 10 4).write [7]).2) 1).2 0 1).1 ≠
      ((S3StreamingDownload.read
          (((BaseS3StreamingObject.mk0 10 4).write [7]).2) 1).2.tell).1 + 0 := by
  decide

/-- C7 amended: for both variants, `whence=0` returns `offset` and
`whence=2` returns `file_size + offset` (so `seek(-k, END)` returns
`file_size - k`); with `whence=1` the upload variant returns the current
cursor plus `offset`, while the download variant instead returns
`processed + len(data) + offset`. -/
theorem c7_seek_amended (s : BaseS3StreamingObject) (offset : Int) (k : Nat) :
    (S3StreamingUpload.seek s offset 0).1 = offset ∧
    (S3StreamingDownload.seek s offset 0).1 = offset ∧
    (S3StreamingUpload.seek s offset 1).1 = s.seek_pos + offset ∧
    (S3StreamingDownload.seek s offset 1).1 =
      (s.processed : Int) + s.data.length + offset ∧
    (S3StreamingUpload.seek s offset 2).1 = (s.file_size : Int) + offset ∧
    (S3StreamingDownload.seek s offset 2).1 = (s.file_size : Int) + offset ∧
    (S3StreamingUpload.seek s (-(k : Int)) 2).1 = (s.file_size : Int) - k ∧
    (S3StreamingDownload.seek s (-(k : Int)) 2).1 = (s.file_size : Int) - k := by
  norm_num [S3StreamingUpload.seek, S3StreamingDownload.seek]
  omega

/-- C9: setting the `error` property with an `Exception` stores it (the
getter then returns it) and the setter returns `True`; setting it with a
non-`Exception` value leaves the whole state unchanged and the setter
returns `False`; the setter is a total function, so no exception is raised
in either case. -/
theorem c9_error_setter (s : BaseS3StreamingObject) (p q : Nat) :
    (s.errorSet (.exc p)).1 = true ∧
    ((s.errorSet (.exc p)).2).errorGet = some p ∧
    (s.errorSet (.nonexc q)).1 = false ∧
    (s.errorSet (.nonexc q)).2 = s := by
  simp [BaseS3StreamingObject.errorSet, BaseS3StreamingObject.errorGet]

/-- C10: `S3StreamingDownload.seek` computes and returns a position but
modifies no state: the returned object state equals the input state in
every field (window bytes, cursor, `processed`, `closed`, error, and both
event flags). -/
theorem c10_download_seek_frame (s : BaseS3StreamingObject)
    (offset whence : Int) :
    (S3StreamingDownload.seek s offset whence).2 = s ∧
    (S3StreamingDownload.seek s offset whence).2.data = s.data ∧
    (S3StreamingDownload.seek s offset whence).2.seek_pos = s.seek_pos ∧
    (S3StreamingDownload.seek s offset whence).2.processed = s.processed ∧
    (S3StreamingDownload.seek s offset whence).2.closed = s.closed ∧
    (S3StreamingDownload.seek s offset whence).2.error = s.error ∧
    (S3StreamingDownload.seek s offset whence).2.can_read_event =
      s.can_read_event ∧
    (S3StreamingDownload.seek s offset whence).2.can_write_event =
      s.can_write_event := by
  simp [S3StreamingDownload.seek]

/-- C4 counterexample: with `buffer_size = 4`, writing 8 bytes clears the
room-available event, but `prune(1)` re-sets it even though the buffered
size (7) is still at least the capacity (4).  This refutes the claim that
the room-available signal is set only in states with
`len(data) < buffer_size`. -/
theorem c4_room_counterexample :
    ((((BaseS3StreamingObject.mk0 10 4).write
        [1, 2, 3, 4, 5, 6, 7, 8]).2).prune 1).can_write_event = true ∧
    ((((BaseS3StreamingObject.mk0 10 4).write
        [1, 2, 3, 4, 5, 6, 7, 8]).2).prune 1).buffer_size ≤
      ((((BaseS3StreamingObject.mk0 10 4).write
        [1, 2, 3, 4, 5, 6, 7, 8]).2).prune 1).data.length := by
  decide

/-- C4 amended: a write that pushes `len(data) ≥ buffer_size` clears the
room-available event, and a write that stays below capacity leaves it
unchanged; but every `prune` re-sets the event unconditionally — even when
the buffered size remains at or above capacity — so a blocked write is
released by any prune call, not only once the size has dropped below
capacity. -/
theorem c4_room_amended (s : BaseS3StreamingObject) (chunk : List Nat)
    (a : Nat) :
    (s.buffer_size ≤ s.data.length + chunk.length →
      ((s.write chunk).2).can_write_event = false) ∧
    (s.data.length + chunk.length < s.buffer_size →
      ((s.write chunk).2).can_write_event = s.can_write_event) ∧
    (s.prune a).can_write_event = true := by
  refine ⟨?_, ?_, rfl⟩
  · intro h
    simp [BaseS3StreamingObject.write, h]
  · intro h
    simp only [BaseS3StreamingObject.write, List.length_append]
    rw [if_neg (by omega)]

/-- C4 amended witness: at capacity 4, a write bringing the size to 4
clears the event; a write keeping the size at 2 leaves it set. -/
theorem c4_room_amended_witness :
    ((⟨10, 4, 0, 0, [1, 2], false, none, true, false⟩ :
        BaseS3StreamingObject).write [3, 4]).2.can_write_event = false ∧
    ((⟨10, 4, 0, 0, [1], false, none, true, false⟩ :
        BaseS3StreamingObject).write [2]).2.can_write_event = true :=
  ⟨(c4_room_amended ⟨10, 4, 0, 0, [1, 2], false, none, true, false⟩
      [3, 4] 0).1 (by decide),
   (c4_room_amended ⟨10, 4, 0, 0, [1], false, none, true, false⟩
      [2] 0).2.1 (by decide)⟩

/-- C5 counterexample: with `file_size = 2`, after writing one byte the
data-available event is set, but `prune(1)` clears it although
`processed = 1` has not reached `file_size = 2` — the event is cleared
exactly because the window became empty while `processed < file_size`,
which the claim says never happens. -/
theorem c5_data_event_counterexample :
    (((BaseS3StreamingObject.mk0 2 4).write [7]).2).can_read_event = true ∧
    ((((BaseS3StreamingObject.mk0 2 4).write [7]).2).prune 1).can_read_event
      = false ∧
    ((((BaseS3StreamingObject.mk0 2 4).write [7]).2).prune 1).processed <
      ((((BaseS3StreamingObject.mk0 2 4).write [7]).2).prune 1).file_size := by
  decide

/-- C5 amended: the data-available event is set by every write and every
close; `prune` leaves it unchanged while the window stays non-empty,
clears it when the window becomes empty with `processed < file_size`
(more precisely `processed ≠ file_size`), and sets it when the window
becomes empty with `processed = file_size` (releasing the final empty
read). -/
theorem c5_data_event_amended (s : BaseS3StreamingObject)
    (chunk : List Nat) (a : Nat) :
    ((s.write chunk).2).can_read_event = true ∧
    (s.close).can_read_event = true ∧
    (s.data.drop a ≠ [] → (s.prune a).can_read_event = s.can_read_event) ∧
    (s.data.drop a = [] → s.processed + a = s.file_size →
      (s.prune a).can_read_event = true) ∧
    (s.data.drop a = [] → s.processed + a ≠ s.file_size →
      (s.prune a).can_read_event = false) := by
  refine ⟨rfl, rfl, ?_, ?_, ?_⟩
  · intro h
    have hlen : (s.data.drop a).length ≠ 0 := fun hz =>
      h (List.length_eq_zero.mp hz)
    simp only [BaseS3StreamingObject.prune]
    rw [if_neg hlen]
  · intro h1 h2
    have hlen : (s.data.drop a).length = 0 := by simp [h1]
    simp only [BaseS3StreamingObject.prune]
    rw [if_pos hlen]
    simp [h2]
  · intro h1 h2
    have hlen : (s.data.drop a).length = 0 := by simp [h1]
    simp only [BaseS3StreamingObject.prune]
    rw [if_pos hlen]
    simp [h2]

/-- C5 amended witness: evaluating the three prune cases on concrete
states with `file_size = 2`. -/
theorem c5_data_event_amended_witness :
    ((⟨2, 4, 0, 0, [7], false, none, true, true⟩ :
        BaseS3StreamingObject).prune 0).can_read_event = true ∧
    ((⟨2, 4, 1, 0, [7], false, none, true, true⟩ :
        BaseS3StreamingObject).prune 1).can_read_event = true ∧
    ((⟨2, 4, 0, 0, [7], false, none, true, true⟩ :
        BaseS3StreamingObject).prune 1).can_read_event = false :=
  ⟨by
    have h := (c5_data_event_amended
      (⟨2, 4, 0, 0, [7], false, none, true, true⟩ :
        BaseS3StreamingObject) [] 0).2.2.1 (by decide)
    exact h,
   (c5_data_event_amended
      (⟨2, 4, 1, 0, [7], false, none, true, true⟩ :
        BaseS3StreamingObject) [] 1).2.2.2.1 (by decide) (by decide),
   (c5_data_event_amended
      (⟨2, 4, 0, 0, [7], false, none, true, true⟩ :
        BaseS3StreamingObject) [] 1).2.2.2.2 (by decide) (by decide)⟩

/-- C6 counterexample: on a drained, closed download object,
`S3StreamingDownload.read` returns Python `None` (modelled `Option.none`),
a sentinel distinct from the empty byte sequence `some []` — refuting the
claim that every variant signals "no data"/EOF with an empty value of the
declared bytes type. -/
theorem c6_none_sentinel_counterexample :
    (S3StreamingDownload.read ((BaseS3StreamingObject.mk0 0 4).close) 5).1
      = none ∧
    (S3StreamingDownload.read ((BaseS3StreamingObject.mk0 0 4).close) 5).1
      ≠ some [] := by
  decide

/-- C6 amended: after `close()` the data-available event is set, so a read
does not block; on a drained buffer (cursor at the window's end) the
upload variant's read then returns the empty byte sequence immediately,
while the download variant's read returns the `None` sentinel instead of
an empty byte sequence. -/
theorem c6_empty_read_amended (s : BaseS3StreamingObject) (n : Nat) :
    (s.close).can_read_event = true ∧
    (s.seek_pos = (s.data.length : Int) →
      (S3StreamingUpload.read (s.close) n).1 = []) ∧
    (s.seek_pos = (s.data.length : Int) →
      (S3StreamingDownload.read (s.close) n).1 = none) := by
  have hdata : (s.close).data = s.data := rfl
  have hpos : (s.close).seek_pos = s.seek_pos := rfl
  refine ⟨rfl, ?_, ?_⟩
  · intro h
    have h0 : 0 ≤ (s.close).seek_pos := by rw [hpos]; omega
    have hle : (s.close).seek_pos ≤ ((s.close).data.length : Int) := by
      rw [hpos, hdata]; omega
    rw [upload_read_eq _ n h0 hle]
    have htn : (s.close).seek_pos.toNat = (s.close).data.length := by
      rw [hpos, hdata]; omega
    simp [htn, List.drop_length]
  · intro h
    have h0 : 0 ≤ (s.close).seek_pos := by rw [hpos]; omega
    have hle : (s.close).seek_pos ≤ ((s.close).data.length : Int) := by
      rw [hpos, hdata]; omega
    rw [download_read_eq _ n h0 hle]
    have htn : (s.close).seek_pos.toNat = (s.close).data.length := by
      rw [hpos, hdata]; omega
    simp [htn, List.drop_length]

/-- C6 amended witness: a closed object holding 2 bytes with the cursor at
the end. -/
theorem c6_empty_read_amended_witness :
    (S3StreamingUpload.read
      ((⟨9, 4, 0, 2, [5, 6], false, none, true, false⟩ :
        BaseS3StreamingObject).close) 3).1 = [] ∧
    (S3StreamingDownload.read
      ((⟨9, 4, 0, 2, [5, 6], false, none, true, false⟩ :
        BaseS3StreamingObject).close) 3).1 = none :=
  ⟨(c6_empty_read_amended
      (⟨9, 4, 0, 2, [5, 6], false, none, true, false⟩ :
        BaseS3StreamingObject) 3).2.1 (by decide),
   (c6_empty_read_amended
      (⟨9, 4, 0, 2, [5, 6], false, none, true, false⟩ :
        BaseS3StreamingObject) 3).2.2 (by decide)⟩

/-- C8: for every state — open or closed — `close()` sets the `closed`
flag and sets the data-available event (releasing a blocked reader);
calling `close()` twice gives exactly the state of calling it once; and no
operation of the object (write, prune, either read, either seek, close,
tell, or the error setter) ever makes `closed` false again once it is
true. -/
theorem c8_close_spec (s : BaseS3StreamingObject) (op : Op) :
    (s.close).closed = true ∧
    (s.close).can_read_event = true ∧
    (s.close).close = s.close ∧
    (s.closed = true → (op.step s).closed = true) := by
  refine ⟨rfl, rfl, rfl, ?_⟩
  intro h
  cases op with
  | readDown n =>
      simp only [Op.step, S3StreamingDownload.read]
      split
      · exact h
      · simp [BaseS3StreamingObject.prune, h]
  | errSet v =>
      cases v <;> simp [Op.step, BaseS3StreamingObject.errorSet, h]
  | _ =>
      simp [Op.step, BaseS3StreamingObject.write, BaseS3StreamingObject.prune,
        S3StreamingUpload.read, S3StreamingUpload.seek,
        S3StreamingDownload.seek, BaseS3StreamingObject.close,
        BaseS3StreamingObject.tell, h]

/-- C8 witness: closing the freshly constructed (open) object sets the
`closed` flag, and the closed object stays closed across a subsequent
write. -/
theorem c8_close_spec_witness :
    ((BaseS3StreamingObject.mk0 3 4).close).closed = true ∧
    ((Op.write [1]).step ((BaseS3StreamingObject.mk0 3 4).close)).closed
      = true :=
  ⟨(c8_close_spec (BaseS3StreamingObject.mk0 3 4) (.write [1])).1,
   (c8_close_spec ((BaseS3StreamingObject.mk0 3 4).close) (.write [1])).2.2.2
     (by decide)⟩

/-- C2 counterexample: after writing two bytes and seeking the cursor to 5
(beyond the window's end), `read(3)` returns no bytes yet moves the cursor
backwards from 5 to 2 = `len(data)` — refuting both "the cursor is
advanced by exactly the number of bytes returned" and "the cursor never
decreases across a read". -/
theorem c2_read_counterexample :
    (S3StreamingUpload.read
        ((S3StreamingUpload.seek
          (((BaseS3StreamingObject.mk0 10 4).write [1, 2]).2) 5 0).2)
        3).2.seek_pos <
      ((S3StreamingUpload.seek
          (((BaseS3StreamingObject.mk0 10 4).write [1, 2]).2) 5 0).2).seek_pos ∧
    (S3StreamingUpload.read
        ((S3StreamingUpload.seek
          (((BaseS3StreamingObject.mk0 10 4).write [1, 2]).2) 5 0).2)
        3).2.seek_pos ≠
      ((S3StreamingUpload.seek
          (((BaseS3StreamingObject.mk0 10 4).write [1, 2]).2) 5 0).2).seek_pos +
        ((S3StreamingUpload.read
            ((S3StreamingUpload.seek
              (((BaseS3StreamingObject.mk0 10 4).write [1, 2]).2) 5 0).2)
            3).1.length : Int) := by
  decide

/-- C2 amended: for every `n ≥ 0` and every state with non-negative
cursor, the upload variant's `read(n)` returns at most `n` bytes; while
`cursor ≤ len(data)` those bytes are the initial part of the window suffix
starting at the cursor and the cursor advances by exactly the number of
bytes returned; but when the cursor lies beyond the window's end, `read`
returns empty and moves the cursor *back* to `len(data)`.  The download
variant's `read(n)` takes the same bytes but its self-prune restores the
window-relative cursor and instead advances `processed` by the number of
bytes returned. -/
theorem c2_read_amended (s : BaseS3StreamingObject) (n : Nat)
    (h0 : 0 ≤ s.seek_pos) :
    (S3StreamingUpload.read s n).1.length ≤ n ∧
    (s.seek_pos ≤ (s.data.length : Int) →
      (S3StreamingUpload.read s n).1 =
        (s.data.drop s.seek_pos.toNat).take
          (S3StreamingUpload.read s n).1.length ∧
      (S3StreamingUpload.read s n).2.seek_pos =
        s.seek_pos + (S3StreamingUpload.read s n).1.length) ∧
    ((s.data.length : Int) < s.seek_pos →
      (S3StreamingUpload.read s n).1 = [] ∧
      (S3StreamingUpload.read s n).2.seek_pos = (s.data.length : Int)) ∧
    (s.seek_pos ≤ (s.data.length : Int) →
      (S3StreamingDownload.read s n).2.seek_pos = s.seek_pos ∧
      (S3StreamingDownload.read s n).2.processed =
        s.processed + ((S3StreamingDownload.read s n).1.getD []).length ∧
      (S3StreamingDownload.read s n).1.getD [] =
        (S3StreamingUpload.read s n).1) := by
  rcases le_or_lt s.seek_pos ((s.data.length : Int)) with hle | hgt
  · have hu := upload_read_eq s n h0 hle
    have hd := download_read_eq s n h0 hle
    rw [hu, hd]
    have hlen : ((s.data.drop s.seek_pos.toNat).take n).length =
        min n (s.data.length - s.seek_pos.toNat) := by
      simp [List.length_take, List.length_drop]
    have hmin : min (n : Int) ((s.data.length : Int) - s.seek_pos) =
        (((s.data.drop s.seek_pos.toNat).take n).length : Int) := by
      rw [hlen]; push_cast; omega
    refine ⟨?_, fun _ => ⟨?_, ?_⟩, fun hc => absurd hc (by omega), fun _ => ?_⟩
    · rw [hlen]; omega
    · conv_lhs => rw [← take_min_length (s.data.drop s.seek_pos.toNat) n]
      rw [hlen, List.length_drop]
    · rw [hmin]
    · by_cases hout : (s.data.drop s.seek_pos.toNat).take n = []
      · rw [if_pos hout]
        have h0len : ((s.data.drop s.seek_pos.toNat).take n).length = 0 := by
          rw [hout]; rfl
        refine ⟨?_, ?_, by simp [hout]⟩
        · show s.seek_pos + min (n : Int) _ = s.seek_pos
          rw [hmin, h0len]; push_cast; omega
        · simp
      · rw [if_neg hout]
        refine ⟨?_, rfl, rfl⟩
        show s.seek_pos + min (n : Int) _ -
            ((s.data.drop s.seek_pos.toNat).take n).length = s.seek_pos
        rw [hmin]; omega
  · have hu := upload_read_beyond s n h0 hgt
    rw [hu]
    exact ⟨by simp, fun hc => absurd hc (by omega), fun _ => ⟨rfl, rfl⟩,
      fun hc => absurd hc (by omega)⟩

/-- C2 amended witness: the concrete state with window `[5, 6, 7]` and
cursor 1; `read(2)` returns `[6, 7]` and advances the cursor to 3. -/
theorem c2_read_amended_witness :
    (S3StreamingUpload.read
        (⟨10, 4, 0, 1, [5, 6, 7], false, none, true, true⟩ :
          BaseS3StreamingObject) 2).2.seek_pos =
      (1 : Int) +
        ((S3StreamingUpload.read
          (⟨10, 4, 0, 1, [5, 6, 7], false, none, true, true⟩ :
            BaseS3StreamingObject) 2).1.length : Int) :=
  ((c2_read_amended
      (⟨10, 4, 0, 1, [5, 6, 7], false, none, true, true⟩ :
        BaseS3StreamingObject) 2 (by decide)).2.1 (by decide)).2

/-- Round-trip invariant for the download (self-pruning) variant: starting
from any state with cursor 0, after any interleaving of writes and reads
the bytes returned so far followed by the still-buffered window equal the
initial window followed by everything written, and the cursor is back at
0.  This holds for every interleaving because a read on an empty window
returns `None` and changes nothing. -/
lemma runD_spec (ops : List OpRW) :
    ∀ s : BaseS3StreamingObject, s.seek_pos = 0 →
      (runD ops s).1 ++ (runD ops s).2.data = s.data ++ writesOf ops ∧
      (runD ops s).2.seek_pos = 0 := by
  induction ops with
  | nil =>
      intro s h
      simp [runD, writesOf, h]
  | cons op ops ih =>
      intro s h
      cases op with
      | wr c =>
          have hih := ih (s.write c).2
            (by simpa [BaseS3StreamingObject.write] using h)
          simp only [runD, writesOf]
          refine ⟨?_, hih.2⟩
          rw [hih.1]
          simp [BaseS3StreamingObject.write, List.append_assoc]
      | rd n =>
          have h0 : (0 : Int) ≤ s.seek_pos := by omega
          have hle : s.seek_pos ≤ (s.data.length : Int) := by
            rw [h]; exact Int.natCast_nonneg _
          have hd := download_read_eq s n h0 hle
          have htn : s.seek_pos.toNat = 0 := by omega
          have hm : min (n : Int) ((s.data.length : Int) - s.seek_pos) =
              ((min n s.data.length : Nat) : Int) := by
            rw [h]; push_cast; omega
          rw [htn, List.drop_zero, hm, h] at hd
          simp only [zero_add] at hd
          by_cases hout : s.data.take n = []
          · rw [if_pos hout] at hd
            have hmin0 : min n s.data.length = 0 := by
              have := congrArg List.length hout
              simpa [List.length_take] using this
            have hih := ih
              { s with seek_pos := ((min n s.data.length : Nat) : Int) }
              (by simp [hmin0])
            simp only [runD, writesOf]
            rw [hd]
            simp only [Option.getD_none, List.nil_append]
            exact ⟨hih.1, hih.2⟩
          · rw [if_neg hout] at hd
            have hlen : (s.data.take n).length = min n s.data.length := by
              simp [List.length_take]
            have hs2pos :
                ((({ s with seek_pos :=
                    ((min n s.data.length : Nat) : Int) }).prune
                  (s.data.take n).length)).seek_pos = 0 := by
              simp [BaseS3StreamingObject.prune, hlen]
            have hih := ih
              (({ s with seek_pos := ((min n s.data.length : Nat) : Int) }).prune
                (s.data.take n).length) hs2pos
            have hs2data :
                ((({ s with seek_pos :=
                    ((min n s.data.length : Nat) : Int) }).prune
                  (s.data.take n).length)).data =
                  s.data.drop (min n s.data.length) := by
              simp [BaseS3StreamingObject.prune, hlen]
            simp only [runD, writesOf]
            rw [hd]
            simp only [Option.getD_some]
            refine ⟨?_, hih.2⟩
            rw [List.append_assoc, hih.1, hs2data, ← List.append_assoc]
            congr 1
            rw [← take_min_length s.data n]
            exact List.take_append_drop _ _

/-- Round-trip invariant for the upload variant driven with the required
external pruning (`prune(len(output))` after every read), in the same form
as `runD_spec`. -/
lemma runU_spec (ops : List OpRW) :
    ∀ s : BaseS3StreamingObject, s.seek_pos = 0 →
      (runU ops s).1 ++ (runU ops s).2.data = s.data ++ writesOf ops ∧
      (runU ops s).2.seek_pos = 0 := by
  induction ops with
  | nil =>
      intro s h
      simp [runU, writesOf, h]
  | cons op ops ih =>
      intro s h
      cases op with
      | wr c =>
          have hih := ih (s.write c).2
            (by simpa [BaseS3StreamingObject.write] using h)
          simp only [runU, writesOf]
          refine ⟨?_, hih.2⟩
          rw [hih.1]
          simp [BaseS3StreamingObject.write, List.append_assoc]
      | rd n =>
          have h0 : (0 : Int) ≤ s.seek_pos := by omega
          have hle : s.seek_pos ≤ (s.data.length : Int) := by
            rw [h]; exact Int.natCast_nonneg _
          have hu := upload_read_eq s n h0 hle
          have htn : s.seek_pos.toNat = 0 := by omega
          have hm : min (n : Int) ((s.data.length : Int) - s.seek_pos) =
              ((min n s.data.length : Nat) : Int) := by
            rw [h]; push_cast; omega
          rw [htn, List.drop_zero, hm, h] at hu
          simp only [zero_add] at hu
          have hlen : (s.data.take n).length = min n s.data.length := by
            simp [List.length_take]
          have hs2pos :
              ((({ s with seek_pos :=
                  ((min n s.data.length : Nat) : Int) }).prune
                (s.data.take n).length)).seek_pos = 0 := by
            simp [BaseS3StreamingObject.prune, hlen]
          have hih := ih
            (({ s with seek_pos := ((min n s.data.length : Nat) : Int) }).prune
              (s.data.take n).length) hs2pos
          have hs2data :
              ((({ s with seek_pos :=
                  ((min n s.data.length : Nat) : Int) }).prune
                (s.data.take n).length)).data =
                s.data.drop (min n s.data.length) := by
            simp [BaseS3StreamingObject.prune, hlen]
          simp only [runU, writesOf]
          rw [hu]
          refine ⟨?_, hih.2⟩
          rw [List.append_assoc, hih.1, hs2data, ← List.append_assoc]
          congr 1
          rw [← take_min_length s.data n]
          exact List.take_append_drop _ _

/-- C1: for every interleaving of writes (totalling `file_size` bytes) and
reads that continues until a read yields an empty result — so the final
window is empty, which at cursor 0 is exactly when a read returns the
empty result — the concatenation of all bytes returned by the reads equals
the concatenation of all written chunks, byte for byte, in the download
(self-pruning) variant and in the upload variant with the required
external pruning alike. -/
theorem c1_roundtrip (fs bs : Nat) (ops : List OpRW)
    (htotal : (writesOf ops).length = fs)
    (hD : (runD ops (BaseS3StreamingObject.mk0 fs bs)).2.data = [])
    (hU : (runU ops (BaseS3StreamingObject.mk0 fs bs)).2.data = []) :
    (runD ops (BaseS3StreamingObject.mk0 fs bs)).1 = writesOf ops ∧
    (runU ops (BaseS3StreamingObject.mk0 fs bs)).1 = writesOf ops := by
  have hd := (runD_spec ops (BaseS3StreamingObject.mk0 fs bs) rfl).1
  have hu := (runU_spec ops (BaseS3StreamingObject.mk0 fs bs) rfl).1
  rw [hD, List.append_nil] at hd
  rw [hU, List.append_nil] at hu
  exact ⟨by simpa using hd, by simpa using hu⟩

/-- C1 witness: the trace writes `[1, 2]`, reads 1 byte, then reads up to
5 bytes, with `file_size = 2`, `buffer_size = 4`; both variants return
exactly `[1, 2]`. -/
theorem c1_roundtrip_witness :
    (runD [OpRW.wr [1, 2], OpRW.rd 1, OpRW.rd 5]
        (BaseS3StreamingObject.mk0 2 4)).1 =
      writesOf [OpRW.wr [1, 2], OpRW.rd 1, OpRW.rd 5] ∧
    (runU [OpRW.wr [1, 2], OpRW.rd 1, OpRW.rd 5]
        (BaseS3StreamingObject.mk0 2 4)).1 =
      writesOf [OpRW.wr [1, 2], OpRW.rd 1, OpRW.rd 5] :=
  c1_roundtrip 2 4 [OpRW.wr [1, 2], OpRW.rd 1, OpRW.rd 5]
    (by decide) (by decide) (by decide)
